import Mathlib

/-!
Shallow embedding of `scripts/deploy.py` (rental-exchange deployment and
verification pipeline) and proofs about it.

Python strings are modelled as Lean `String`; a Python value that may be
`None` is modelled as `Option String` (`none` = Python `None`).  Subprocess
invocations are modelled by an oracle mapping the full argument vector of a
command to the lines of its combined stdout/stderr stream.
-/

namespace Deploy

/-- A Python value that is either `None` or a string. -/
abbrev PyVal := Option String

/-- An argument vector handed to `subprocess`. -/
abbrev Cmd := List PyVal

/-! ### Python string primitives -/

/-- Python `str.split()` whitespace characters. -/
def pyIsSpace (c : Char) : Bool :=
  c = ' ' || c = '\t' || c = '\n' || c = '\x0d' || c = '\x0b' || c = '\x0c'

/-- One step of the whitespace tokenizer (processed right to left):
the pair is (current token being built, finished tokens to the right). -/
def tokensAux (c : Char) (acc : List Char × List (List Char)) :
    List Char × List (List Char) :=
  if pyIsSpace c then
    match acc.1 with
    | [] => ([], acc.2)
    | t => ([], t :: acc.2)
  else (c :: acc.1, acc.2)

/-- Maximal runs of non-whitespace characters. -/
def tokens (l : List Char) : List (List Char) :=
  let r := l.foldr tokensAux ([], [])
  match r.1 with
  | [] => r.2
  | t => t :: r.2

/-- Python `s.split()` (split on whitespace runs, no empty tokens). -/
def pySplit (s : String) : List String :=
  (tokens s.data).map (fun t => String.mk t)

/-- Python `s.startswith(pre)`. -/
def pyStartsWith (s pre : String) : Bool :=
  pre.data.isPrefixOf s.data

/-- Python `s.strip()` (strip whitespace from both ends). -/
def pyStrip (s : String) : String :=
  String.mk (((s.data.dropWhile pyIsSpace).reverse.dropWhile pyIsSpace).reverse)

/-- Normalize a Python slice index against a length `n`:
negative indices count from the end and everything is clamped to `[0, n]`. -/
def sliceIdx (n : Nat) (i : Int) : Nat :=
  if i < 0 then ((n : Int) + i).toNat else min i.toNat n

/-- Python `s[a:b]`. -/
def pySlice (s : String) (a b : Int) : String :=
  String.mk (((s.data.take (sliceIdx s.data.length b)).drop (sliceIdx s.data.length a)))

/-- Index of the first occurrence of `sub` in the haystack, offset by `i`
(`none` if `sub` never occurs). -/
def findSubAux (sub : List Char) : List Char → Nat → Option Nat
  | [], i => if sub.isEmpty then some i else none
  | c :: t, i =>
    if sub.isPrefixOf (c :: t) then some i else findSubAux sub t (i + 1)

/-- Python `s.find(sub)`: first index, or `-1`. -/
def pyFind (s sub : String) : Int :=
  match findSubAux sub.data s.data 0 with
  | some n => (n : Int)
  | none => -1

/-- Python `s.find(sub, start)`: first index at or after `start`, or `-1`. -/
def pyFindFrom (s sub : String) (start : Nat) : Int :=
  match findSubAux sub.data (s.data.drop start) 0 with
  | some n => ((start + n : Nat) : Int)
  | none => -1

/-- Split a character list at every occurrence of `sep` (Python
`s.split(sep)` for a one-character separator). -/
def splitOnChar (sep : Char) (l : List Char) : List (List Char) :=
  l.foldr
    (fun c acc =>
      match acc with
      | [] => [[c]]
      | t :: rest => if c = sep then [] :: t :: rest else (c :: t) :: rest)
    [[]]

/-- Python `s.split("\n")`. -/
def pySplitLines (s : String) : List String :=
  (splitOnChar '\n' s.data).map (fun t => String.mk t)

/-! ### Output parsers (`parseAddress`, `parseDeployedAddress`,
`parseCompilerVersion` from `scripts/deploy.py`) -/

/-- Source `parseAddress`: first whitespace-separated token starting with `0x`,
`None` if there is none. -/
def parseAddress (s : String) : Option String :=
  (pySplit s).find? (fun t => pyStartsWith t "0x")

/-- Source `parseDeployedAddress`: on the first line starting with `Deployed to:`,
return `parseAddress` of that line; `None` if no such line. -/
def parseDeployedAddress (output : String) : Option String :=
  match (pySplitLines output).find? (fun l => pyStartsWith l "Deployed to:") with
  | some line => parseAddress line
  | none => none

/-- Source `parseCompilerVersion`: take the last whitespace token of the output,
find `commit`, skip it and the following dot, cut at the next dot, and
prepend `v`.  `none` models the `IndexError` Python raises when the output
has no token at all; when `commit` is absent Python computes the start
index `-1 + 6 + 1 = 6`, which we reproduce. -/
def parseCompilerVersion (output : String) : Option String :=
  match (pySplit output).getLast? with
  | none => none
  | some tok =>
    let b : Nat :=
      match findSubAux "commit".data tok.data 0 with
      | some k => k + 6 + 1
      | none => 6
    let e : Int := pyFindFrom tok "." b
    some ("v" ++ pySlice tok 0 e)

/-! ### Module-level constants of `scripts/deploy.py` -/

def STRATEGY_EXCHANGE_FEE : String := "400"

def PROXY_FACTORY_ADDR : String := "0x18bef085f6dD4Bf6c23aF90465c91cF68D5B74Cb"

def WETH : String := "0x0Bb7509324cE409F7bbC4b701f932eAca9736AB7"

def PROTOCOL_FEE_RECIPIENT : String := "0x891e3465fCD6A67D13762487D2E326e0bF55De2F"

def CHAIN_IDS : List (String × Nat) :=
  [("mainnet", 1), ("ropsten", 3), ("rinkeby", 4), ("goerli", 5)]

/-- Module-level `rpc_url = f"https://eth-[NETWORK].alchemyapi.io/v2/[ALCHEMY_KEY]"`
(the module-level f-string, with the placeholders substituted). -/
def rpc_url (network alchemyKey : String) : String :=
  "https://eth-" ++ network ++ ".alchemyapi.io/v2/" ++ alchemyKey

/-- A Python error raised by the script. -/
inductive PyErr where
  | keyError (key : String)
  | valueError (msg : String)
deriving DecidableEq, Repr

/-- Whether an error belongs to the Configuration-error class of the spec's
error taxonomy (a failed lookup of a configuration key, here the network
name in `CHAIN_IDS`). -/
def isConfigError : PyErr → Bool
  | .keyError _ => true
  | .valueError _ => false

/-- Synthetic subprocess behaviour: maps a full argument vector to the
lines of the combined stdout/stderr stream of that process. -/
abbrev Oracle := Cmd → List String

/-- Full stdout of a `subprocess.check_output` call. -/
def checkOutput (oracle : Oracle) (cmd : Cmd) : String :=
  String.intercalate "\n" (oracle cmd)

/-- Python truthiness of an optional string (`None` and `""` are falsy). -/
def pyTruthy : PyVal → Bool
  | none => false
  | some s => !(s = "")

/-! ### `deploy_contract` / `deploy_contracts` -/

/-- The `forge create` argument vector built by `deploy_contract`. -/
def forgeCreateCmd (rpcUrl pk : String) (contract : String)
    (constructorArgs : List PyVal) : Cmd :=
  [some "forge", some "create", some "--rpc-url", some rpcUrl,
   some "--private-key", some pk, some contract] ++
  (if constructorArgs.length > 0
    then some "--constructor-args" :: constructorArgs
    else [])

/-- One line of `deploy_contract`'s stream loop: on a `Deployed to:` line
the accumulator is overwritten with `parseAddress` of that line. -/
def deployScanStep (address : PyVal) (line : String) : PyVal :=
  if pyStartsWith line "Deployed to:" then parseAddress line else address

/-- The whole stream loop of `deploy_contract`; the accumulator starts as
the empty string (`address = ""`). -/
def deployScan (lines : List String) : PyVal :=
  lines.foldl deployScanStep (some "")

/-- Source `deploy_contract`: build the command, run it, scan the stream.
Returns the resulting address value together with the command issued. -/
def deploy_contract (rpcUrl pk : String) (oracle : Oracle) (contract : String)
    (constructorArgs : List PyVal) : PyVal × Cmd :=
  let cmd := forgeCreateCmd rpcUrl pk contract constructorArgs
  (deployScan (oracle cmd), cmd)

/-- Source `deploy_contracts`: the eight sequential deployments, each later
command built from the recorded results of the earlier ones.  Returns the
address map (an association list in insertion order) and the trace of the
eight commands in the order they were issued. -/
def deploy_contracts (rpcUrl pk : String) (oracle : Oracle) :
    List (String × PyVal) × List Cmd :=
  let r1 := deploy_contract rpcUrl pk oracle
    "src/strategies/StrategyStandardSaleForFixedPrice.sol:StrategyStandardSaleForFixedPrice"
    [some STRATEGY_EXCHANGE_FEE]
  let fixedPriceStrategy := r1.1
  let r2 := deploy_contract rpcUrl pk oracle "src/CurrencyManager.sol:CurrencyManager" []
  let currencyManager := r2.1
  let r3 := deploy_contract rpcUrl pk oracle "src/ExecutionManager.sol:ExecutionManager" []
  let executionManager := r3.1
  let r4 := deploy_contract rpcUrl pk oracle "src/ReceiptToken.sol:ReceiptToken" []
  let receiptToken := r4.1
  let r5 := deploy_contract rpcUrl pk oracle "src/RentalExchange.sol:RentalExchange"
    [currencyManager, executionManager, some PROXY_FACTORY_ADDR,
     receiptToken, some WETH, some PROTOCOL_FEE_RECIPIENT]
  let exchange := r5.1
  let r6 := deploy_contract rpcUrl pk oracle
    "src/transferManagers/TransferManagerERC721.sol:TransferManagerERC721" [exchange]
  let transferManagerERC721 := r6.1
  let r7 := deploy_contract rpcUrl pk oracle
    "src/transferManagers/TransferManagerERC1155.sol:TransferManagerERC1155" [exchange]
  let transferManagerERC1155 := r7.1
  let r8 := deploy_contract rpcUrl pk oracle
    "src/TransferSelectorNFT.sol:TransferSelectorNFT"
    [transferManagerERC721, transferManagerERC1155]
  let transferSelector := r8.1
  ([("fixedPriceStrategy", fixedPriceStrategy),
    ("currencyManager", currencyManager),
    ("executionManager", executionManager),
    ("receiptToken", receiptToken),
    ("exchange", exchange),
    ("transferManagerERC721", transferManagerERC721),
    ("transferManagerERC1155", transferManagerERC1155),
    ("transferSelector", transferSelector)],
   [r1.2, r2.2, r3.2, r4.2, r5.2, r6.2, r7.2, r8.2])

/-! ### `verify_contract` / `verify_contracts` -/

/-- One line of `verify_contract`'s stream loop: on a line whose stripped
form starts with `GUID:`, the accumulator is overwritten with the last
whitespace token of the line minus its first and last characters
(`line.split()[-1][1:-1]`).  The `none` branch of the inner match is
unreachable: the guard guarantees the line has at least one token. -/
def guidStep (guid : String) (line : String) : String :=
  if pyStartsWith (pyStrip line) "GUID:" then
    match (pySplit line).getLast? with
    | some tok => pySlice tok 1 (-1)
    | none => guid
  else guid

/-- The whole stream loop of `verify_contract` (`guid = ""` initially). -/
def verifyScan (lines : List String) : String :=
  lines.foldl guidStep ""

/-- The `forge verify-contract` argument vector built by `verify_contract`
(the encoded constructor arguments are appended only when truthy). -/
def forgeVerifyCmd (chainId optimizerRuns : Nat) (compilerVersion address : PyVal)
    (contract : String) (encodedConstructorArgs : PyVal) : Cmd :=
  [some "forge", some "verify-contract", some "--chain-id", some (toString chainId),
   some "--num-of-optimizations", some (toString optimizerRuns),
   some "--compiler-version", compilerVersion, address, some contract] ++
  (if pyTruthy encodedConstructorArgs
    then [some "--constructor-args", encodedConstructorArgs]
    else [])

/-- Source `verify_contract`: build the command, run it, scan the stream for the
`GUID:` line.  Returns the tracking id and the command issued. -/
def verify_contract (chainId optimizerRuns : Nat) (compilerVersion address : PyVal)
    (contract : String) (encodedConstructorArgs : PyVal) (oracle : Oracle) :
    String × Cmd :=
  let cmd := forgeVerifyCmd chainId optimizerRuns compilerVersion address contract
    encodedConstructorArgs
  (verifyScan (oracle cmd), cmd)

/-- One line of the compiler-version probe loop in `verify_contracts`
(`compiler_version = ""` initially; a `Version:` line always has a token,
so the `none` result of `parseCompilerVersion` is unreachable there). -/
def compilerScanStep (acc : PyVal) (line : String) : PyVal :=
  if pyStartsWith line "Version:" then parseCompilerVersion line else acc

/-- Dictionary access `addresses[name]` (every key is present when called
from the pipeline). -/
def dictGet (m : List (String × PyVal)) (name : String) : PyVal :=
  (List.lookup name m).getD none

/-- Source `verify_contracts`: probe the compiler version, then verify the eight
contracts, ABI-encoding each constructor-argument tuple first.  Returns
the tracking-id map and the trace of commands in the order issued. -/
def verify_contracts (chainId : Nat) (solc : String) (optimizerRuns : Nat)
    (oracle : Oracle) (addresses : List (String × PyVal)) :
    List (String × String) × List Cmd :=
  let solcCmd : Cmd := [some ("./.svm/" ++ solc ++ "/solc-" ++ solc), some "--version"]
  let compilerVersion := (oracle solcCmd).foldl compilerScanStep (some "")
  let cast1 : Cmd := [some "cast", some "abi-encode", some "constructor(uint256)",
    some STRATEGY_EXCHANGE_FEE]
  let enc1 : PyVal := some (checkOutput oracle cast1)
  let v1 := verify_contract chainId optimizerRuns compilerVersion
    (dictGet addresses "fixedPriceStrategy")
    "src/strategies/StrategyStandardSaleForFixedPrice.sol:StrategyStandardSaleForFixedPrice"
    enc1 oracle
  let v2 := verify_contract chainId optimizerRuns compilerVersion
    (dictGet addresses "currencyManager")
    "src/CurrencyManager.sol:CurrencyManager" none oracle
  let v3 := verify_contract chainId optimizerRuns compilerVersion
    (dictGet addresses "executionManager")
    "src/ExecutionManager.sol:ExecutionManager" none oracle
  let v4 := verify_contract chainId optimizerRuns compilerVersion
    (dictGet addresses "receiptToken")
    "src/ReceiptToken.sol:ReceiptToken" none oracle
  let cast2 : Cmd := [some "cast", some "abi-encode",
    some "constructor(address,address,address,address,address,address)",
    dictGet addresses "currencyManager", dictGet addresses "executionManager",
    some PROXY_FACTORY_ADDR, dictGet addresses "receiptToken",
    some WETH, some PROTOCOL_FEE_RECIPIENT]
  let enc2 : PyVal := some (checkOutput oracle cast2)
  let v5 := verify_contract chainId optimizerRuns compilerVersion
    (dictGet addresses "exchange")
    "src/RentalExchange.sol:RentalExchange" enc2 oracle
  let cast3 : Cmd := [some "cast", some "abi-encode", some "constructor(address)",
    dictGet addresses "exchange"]
  let enc3 : PyVal := some (checkOutput oracle cast3)
  let v6 := verify_contract chainId optimizerRuns compilerVersion
    (dictGet addresses "transferManagerERC721")
    "src/transferManagers/TransferManagerERC721.sol:TransferManagerERC721" enc3 oracle
  let cast4 : Cmd := [some "cast", some "abi-encode", some "constructor(address)",
    dictGet addresses "exchange"]
  let enc4 : PyVal := some (checkOutput oracle cast4)
  let v7 := verify_contract chainId optimizerRuns compilerVersion
    (dictGet addresses "transferManagerERC1155")
    "src/transferManagers/TransferManagerERC1155.sol:TransferManagerERC1155" enc4 oracle
  let cast5 : Cmd := [some "cast", some "abi-encode", some "constructor(address,address)",
    dictGet addresses "transferManagerERC721", dictGet addresses "transferManagerERC1155"]
  let enc5 : PyVal := some (checkOutput oracle cast5)
  let v8 := verify_contract chainId optimizerRuns compilerVersion
    (dictGet addresses "transferSelector")
    "src/TransferSelectorNFT.sol:TransferSelectorNFT" enc5 oracle
  ([("fixedPriceStrategy", v1.1), ("currencyManager", v2.1),
    ("executionManager", v3.1), ("receiptToken", v4.1),
    ("exchange", v5.1), ("transferManagerERC721", v6.1),
    ("transferManagerERC1155", v7.1), ("transferSelector", v8.1)],
   [solcCmd, cast1, v1.2, v2.2, v3.2, v4.2, cast2, v5.2,
    cast3, v6.2, cast4, v7.2, cast5, v8.2])

/-! ### `check_verfication_status` (name as in the source) -/

/-- The `forge verify-check` argument vector. -/
def verifyCheckCmd (chainId : Nat) (ident etherscanKey : String) : Cmd :=
  [some "forge", some "verify-check", some "--chain-id", some (toString chainId),
   some ident, some etherscanKey]

/-- Python tuple-unpacking of a string into exactly two one-character
strings (`k, v = key`); any other length raises `ValueError`. -/
def pyUnpack2 (s : String) : Except PyErr (String × String) :=
  match s.data with
  | [a, b] => .ok (String.mk [a], String.mk [b])
  | l =>
    .error (.valueError
      (if l.length < 2 then "not enough values to unpack" else "too many values to unpack"))

/-- Source `check_verfication_status`: `for k, v in guids:` iterates over the
keys of the dict and unpacks each key string into `(k, v)`; the command is
built from `k`.  Returns the commands issued before any error, and the
error (if one is raised). -/
def check_verfication_status (chainId : Nat) (etherscanKey : String) :
    List (String × String) → List Cmd × Option PyErr
  | [] => ([], none)
  | (key, _) :: rest =>
    match pyUnpack2 key with
    | .error e => ([], some e)
    | .ok kv =>
      let cmd := verifyCheckCmd chainId kv.1 etherscanKey
      let r := check_verfication_status chainId etherscanKey rest
      (cmd :: r.1, r.2)

/-! ### The module entry (top-level statements of the script) -/

/-- The configuration read from the environment and `foundry.toml`. -/
structure Env where
  alchemyKey : String
  pk : String
  etherscanKey : String
  solc : String
  optimizerRuns : Nat

/-- The whole program: resolve the chain id from the network argument
(`chain_id = CHAIN_IDS[network]`, raising `KeyError` on an unknown name
before any subprocess runs), then deploy, verify and poll.  Returns the
trace of all subprocess commands issued, and the error the process dies
with (if any). -/
def programRun (network : String) (env : Env) (oracle : Oracle) :
    List Cmd × Option PyErr :=
  match List.lookup network CHAIN_IDS with
  | none => ([], some (.keyError network))
  | some chainId =>
    let r1 := deploy_contracts (rpc_url network env.alchemyKey) env.pk oracle
    let r2 := verify_contracts chainId env.solc env.optimizerRuns oracle r1.1
    let r3 := check_verfication_status chainId env.etherscanKey r2.1
    (r1.2 ++ r2.2 ++ r3.1, r3.2)

/-! ### Derived accessors and occurrence predicates -/

/-- The trace of `forge create` commands issued by `deploy_contracts`, in
the order they were issued. -/
def deployTrace (rpcUrl pk : String) (oracle : Oracle) : List Cmd :=
  (deploy_contracts rpcUrl pk oracle).2

/-- The address recorded for the `i`-th deployment call: the scan of the
output of the `i`-th command of the trace. -/
def deployAddressOf (rpcUrl pk : String) (oracle : Oracle) (i : Nat) : PyVal :=
  deployScan (oracle ((deployTrace rpcUrl pk oracle).getD i []))

/-- Occurrence of `sub` in `l` at position `j`. -/
def occursAt (sub l : List Char) (j : Nat) : Prop :=
  sub.isPrefixOf (l.drop j) = true

/-- Whether `sub` occurs anywhere in `s` (Python `sub in s`). -/
def containsSub (s sub : String) : Bool :=
  (findSubAux sub.data s.data 0).isSome

/-! ### Helper lemmas -/

theorem find?_eq_some_of_split {α : Type} (p : α → Bool) (pre : List α) (a : α)
    (post : List α) (hpre : ∀ t ∈ pre, p t = false) (ha : p a = true) :
    List.find? p (pre ++ a :: post) = some a := by
  induction pre with
  | nil => simp [List.find?_cons, ha]
  | cons x xs ih =>
    have hx : p x = false := hpre x (by simp)
    simp only [List.cons_append, List.find?_cons, hx, cond_false]
    exact ih (fun t ht => hpre t (by simp [ht]))

theorem foldl_fix {α β : Type} (f : β → α → β) (l : List α)
    (h : ∀ b a, a ∈ l → f b a = b) : ∀ b, l.foldl f b = b := by
  induction l with
  | nil => intro b; rfl
  | cons x xs ih =>
    intro b
    rw [List.foldl_cons, h b x (by simp)]
    exact ih (fun b a ha => h b a (by simp [ha])) b

theorem guidStep_skip (g line : String)
    (h : pyStartsWith (pyStrip line) "GUID:" = false) : guidStep g line = g := by
  simp [guidStep, h]

theorem deployScanStep_skip (a : PyVal) (line : String)
    (h : pyStartsWith line "Deployed to:" = false) : deployScanStep a line = a := by
  simp [deployScanStep, h]

/-! ### Claim theorems -/

/-- C6: `parseAddress` returns the first whitespace-separated token of the
line that begins with `0x`, and `None` exactly when no token does. -/
theorem parseAddress_first_0x_token (s : String) :
    (parseAddress s = none ↔ ∀ t ∈ pySplit s, pyStartsWith t "0x" = false) ∧
    (∀ pre a post, pySplit s = pre ++ a :: post →
      (∀ t ∈ pre, pyStartsWith t "0x" = false) →
      pyStartsWith a "0x" = true →
      parseAddress s = some a) := by
  constructor
  · unfold parseAddress
    rw [List.find?_eq_none]
    constructor
    · intro h t ht
      have := h t ht
      simpa using this
    · intro h t ht
      simp [h t ht]
  · intro pre a post hsplit hpre ha
    unfold parseAddress
    rw [hsplit]
    exact find?_eq_some_of_split _ pre a post hpre ha

/-- Witness for C6: a well-formed `Deployed to:` line, preceded by other
tokens, yields exactly its `0x`-prefixed token. -/
theorem parseAddress_first_0x_token_witness :
    parseAddress "Deployed to: 0xABCDEF" = some "0xABCDEF" :=
  (parseAddress_first_0x_token "Deployed to: 0xABCDEF").2
    ["Deployed", "to:"] "0xABCDEF" [] (by decide) (by decide) (by decide)

/-- C7: `parseDeployedAddress` returns `None` when no line starts with
`Deployed to:`, and otherwise delegates to `parseAddress` on the first
such line. -/
theorem parseDeployedAddress_first_marker_line (output : String) :
    ((∀ l ∈ pySplitLines output, pyStartsWith l "Deployed to:" = false) →
      parseDeployedAddress output = none) ∧
    (∀ pre line post, pySplitLines output = pre ++ line :: post →
      (∀ l ∈ pre, pyStartsWith l "Deployed to:" = false) →
      pyStartsWith line "Deployed to:" = true →
      parseDeployedAddress output = parseAddress line) := by
  constructor
  · intro h
    unfold parseDeployedAddress
    rw [List.find?_eq_none.mpr (fun l hl => by simp [h l hl])]
  · intro pre line post hsplit hpre hline
    unfold parseDeployedAddress
    rw [hsplit, find?_eq_some_of_split _ pre line post hpre hline]

/-- Witness for C7: both branches at concrete outputs. -/
theorem parseDeployedAddress_first_marker_line_witness :
    parseDeployedAddress "hello\nDeployed to: 0xFF\nbye" = parseAddress "Deployed to: 0xFF" ∧
    parseDeployedAddress "compile error\nno marker" = none :=
  ⟨(parseDeployedAddress_first_marker_line "hello\nDeployed to: 0xFF\nbye").2
      ["hello"] "Deployed to: 0xFF" ["bye"] (by decide) (by decide) (by decide),
   (parseDeployedAddress_first_marker_line "compile error\nno marker").1 (by decide)⟩

/-- C4 counterexample: on an output with two `Deployed to:` lines,
`deploy_contract` returns the address of the last one, while the §4.1
first-line rule (`parseDeployedAddress`) yields the first one. -/
theorem deploy_contract_first_marker_counterexample :
    (deploy_contract "RPC" "PK" (fun _ => ["Deployed to: 0xA", "Deployed to: 0xB"])
      "src/CurrencyManager.sol:CurrencyManager" []).1 = some "0xB" ∧
    parseDeployedAddress "Deployed to: 0xA\nDeployed to: 0xB" = some "0xA" ∧
    (deploy_contract "RPC" "PK" (fun _ => ["Deployed to: 0xA", "Deployed to: 0xB"])
      "src/CurrencyManager.sol:CurrencyManager" []).1
      ≠ parseDeployedAddress "Deployed to: 0xA\nDeployed to: 0xB" := by
  refine ⟨by decide, by decide, by decide⟩

/-- C4 (amended): `deploy_contract` scans every line of the output and
overwrites the address on each `Deployed to:` line, so it returns
`parseAddress` of the last such line; if no line starts with the marker it
returns the empty string (the falsy "absent" value). -/
theorem deploy_contract_last_marker (rpcUrl pk contract : String)
    (ctorArgs : List PyVal) (oracle : Oracle) :
    ((∀ l ∈ oracle (forgeCreateCmd rpcUrl pk contract ctorArgs),
        pyStartsWith l "Deployed to:" = false) →
      (deploy_contract rpcUrl pk oracle contract ctorArgs).1 = some "") ∧
    (∀ pre line post,
      oracle (forgeCreateCmd rpcUrl pk contract ctorArgs) = pre ++ line :: post →
      pyStartsWith line "Deployed to:" = true →
      (∀ x ∈ post, pyStartsWith x "Deployed to:" = false) →
      (deploy_contract rpcUrl pk oracle contract ctorArgs).1 = parseAddress line) := by
  constructor
  · intro h
    show deployScan (oracle (forgeCreateCmd rpcUrl pk contract ctorArgs)) = some ""
    exact foldl_fix _ _ (fun b a ha => deployScanStep_skip b a (h a ha)) _
  · intro pre line post hsplit hline hpost
    show deployScan (oracle (forgeCreateCmd rpcUrl pk contract ctorArgs)) = parseAddress line
    rw [hsplit]
    unfold deployScan
    rw [show pre ++ line :: post = (pre ++ [line]) ++ post by simp,
      List.foldl_append, List.foldl_append]
    rw [foldl_fix _ _ (fun b a ha => deployScanStep_skip b a (hpost a ha))]
    simp [deployScanStep, hline]

/-- Witness for C4's amended theorem. -/
theorem deploy_contract_last_marker_witness :
    (deploy_contract "RPC" "PK"
      (fun _ => ["compiling", "Deployed to: 0xCAFE", "done"])
      "src/CurrencyManager.sol:CurrencyManager" []).1 = some "0xCAFE" := by
  have h := (deploy_contract_last_marker "RPC" "PK"
      "src/CurrencyManager.sol:CurrencyManager" []
      (fun _ => ["compiling", "Deployed to: 0xCAFE", "done"])).2
      ["compiling"] "Deployed to: 0xCAFE" ["done"] (by decide) (by decide) (by decide)
  rw [h]
  decide

/-- C8: a verification output containing a line whose stripped form is
`GUID: "abc123"` (and no later `GUID:` line) makes `verify_contract`
return `abc123`, the quoted token with its surrounding quotes removed. -/
theorem verify_contract_guid_quotes_stripped (pre post : List String)
    (hpost : ∀ l ∈ post, pyStartsWith (pyStrip l) "GUID:" = false) :
    verifyScan (pre ++ "  GUID: \"abc123\"" :: post) = "abc123" := by
  unfold verifyScan
  rw [show pre ++ "  GUID: \"abc123\"" :: post = (pre ++ ["  GUID: \"abc123\""]) ++ post by simp,
    List.foldl_append, List.foldl_append]
  rw [foldl_fix _ _ (fun b a ha => guidStep_skip b a (hpost a ha))]
  have hg : pyStartsWith (pyStrip "  GUID: \"abc123\"") "GUID:" = true := by decide
  have ht : (pySplit "  GUID: \"abc123\"").getLast? = some "\"abc123\"" := by decide
  simp [guidStep, hg, ht]
  decide

/-- Witness for C8. -/
theorem verify_contract_guid_quotes_stripped_witness :
    verifyScan ["Compiling 14 files", "  GUID: \"abc123\"", "Submitted"] = "abc123" :=
  verify_contract_guid_quotes_stripped ["Compiling 14 files"] ["Submitted"] (by decide)

/-- C10: on every line whose stripped form starts with `GUID:`,
`verify_contract` takes the last whitespace token and unconditionally
drops its first and last characters (so an unquoted `GUID: abc123` yields
`bc12`), and when several such lines occur the last one wins. -/
theorem verify_contract_last_guid_token_chars :
    verifyScan ["GUID: abc123"] = "bc12" ∧
    (∀ g line tok, pyStartsWith (pyStrip line) "GUID:" = true →
      (pySplit line).getLast? = some tok →
      guidStep g line = pySlice tok 1 (-1)) ∧
    (∀ (cs : List Char) (a b : Char),
      pySlice (String.mk (a :: (cs ++ [b]))) 1 (-1) = String.mk cs) ∧
    (∀ pre line post tok, pyStartsWith (pyStrip line) "GUID:" = true →
      (pySplit line).getLast? = some tok →
      (∀ x ∈ post, pyStartsWith (pyStrip x) "GUID:" = false) →
      verifyScan (pre ++ line :: post) = pySlice tok 1 (-1)) := by
  have hstep : ∀ g line tok, pyStartsWith (pyStrip line) "GUID:" = true →
      (pySplit line).getLast? = some tok →
      guidStep g line = pySlice tok 1 (-1) := by
    intro g line tok hl htok
    simp [guidStep, hl, htok]
  refine ⟨by decide, hstep, ?_, ?_⟩
  · intro cs a b
    unfold pySlice sliceIdx
    have hd : (String.mk (a :: (cs ++ [b]))).data = a :: (cs ++ [b]) := rfl
    rw [hd]
    have hlen : (a :: (cs ++ [b])).length = cs.length + 2 := by simp
    rw [hlen]
    have h1 : (if (1 : Int) < 0 then ((cs.length + 2 : Nat) + (1 : Int)).toNat
        else min (1 : Int).toNat (cs.length + 2)) = 1 := by
      rw [if_neg (by omega)]
      omega
    have h2 : (if (-1 : Int) < 0 then ((cs.length + 2 : Nat) + (-1 : Int)).toNat
        else min (-1 : Int).toNat (cs.length + 2)) = cs.length + 1 := by
      rw [if_pos (by omega)]
      omega
    rw [h1, h2, List.take_succ_cons, List.take_left, List.drop_one, List.tail_cons]
  · intro pre line post tok hl htok hpost
    unfold verifyScan
    rw [show pre ++ line :: post = (pre ++ [line]) ++ post by simp,
      List.foldl_append, List.foldl_append]
    rw [foldl_fix _ _ (fun b a ha => guidStep_skip b a (hpost a ha))]
    simp only [List.foldl_cons, List.foldl_nil]
    exact hstep _ line tok hl htok

/-- Witness for C10: two `GUID:` lines, the second unquoted; the result is
the last line's token minus its first and last characters. -/
theorem verify_contract_last_guid_token_chars_witness :
    verifyScan ["GUID: \"first\"", "GUID: abc123"] = "bc12" := by
  have h := verify_contract_last_guid_token_chars.2.2.2
    ["GUID: \"first\""] "GUID: abc123" [] "abc123" (by decide) (by decide) (by decide)
  rw [show (["GUID: \"first\"", "GUID: abc123"] : List String) =
    ["GUID: \"first\""] ++ "GUID: abc123" :: [] from rfl, h]
  decide

/-- C2 (code bug): `check_verfication_status` iterates `for k, v in guids:`
over the dict itself, so each *key string* is tuple-unpacked; with the
pipeline's real eight-key tracking map this raises `ValueError` before any
`verify-check` subprocess is invoked, and the tracking identifiers are
never passed to the CLI. -/
theorem check_verfication_status_valueError :
    check_verfication_status 5 "EKEY"
      [("fixedPriceStrategy", "g1"), ("currencyManager", "g2"),
       ("executionManager", "g3"), ("receiptToken", "g4"),
       ("exchange", "g5"), ("transferManagerERC721", "g6"),
       ("transferManagerERC1155", "g7"), ("transferSelector", "g8")]
      = ([], some (.valueError "too many values to unpack")) := by
  decide

/-- C3: an unrecognized network name makes the whole program die at the
`chain_id = CHAIN_IDS[network]` lookup — a configuration error raised as
`KeyError` — with an empty subprocess trace, i.e. before any subprocess
call is attempted. -/
theorem unknown_network_fails_before_subprocess (network : String) (env : Env)
    (oracle : Oracle) (h : List.lookup network CHAIN_IDS = none) :
    programRun network env oracle = ([], some (.keyError network)) ∧
    isConfigError (.keyError network) = true := by
  constructor
  · unfold programRun
    rw [h]
  · rfl

/-- Witness for C3 at the network name `kovan`. -/
theorem unknown_network_fails_before_subprocess_witness :
    programRun "kovan" ⟨"AK", "PK", "EK", "0.8.13", 200⟩ (fun _ => []) =
      ([], some (.keyError "kovan")) ∧
    isConfigError (.keyError "kovan") = true :=
  unknown_network_fails_before_subprocess "kovan" ⟨"AK", "PK", "EK", "0.8.13", 200⟩
    (fun _ => []) (by decide)

/-- C9: with network `goerli` the chain id resolves to 5, the RPC URL is
`https://eth-goerli.alchemyapi.io/v2/` followed by the provider key, and
the `verify-check` command carries `--chain-id 5`. -/
theorem goerli_chain_id_rpc_and_verify_check :
    List.lookup "goerli" CHAIN_IDS = some 5 ∧
    (∀ key, rpc_url "goerli" key = "https://eth-goerli.alchemyapi.io/v2/" ++ key) ∧
    (∀ ident ekey, verifyCheckCmd 5 ident ekey =
      [some "forge", some "verify-check", some "--chain-id", some "5",
       some ident, some ekey]) := by
  refine ⟨by decide, ?_, fun ident ekey => rfl⟩
  intro key
  rfl

/-- C1: `deploy_contracts` issues exactly eight `forge create` commands, in
the fixed §4.3 order, and returns an address map with exactly the eight
§4.3 keys in that order, each mapped to the address scanned from its own
command's output.  The trace equations exhibit the dependency ordering:
the command at position 4 (exchange) is built from the recorded results of
positions 1, 2 and 3; positions 5 and 6 (the transfer managers) from the
result of position 4; position 7 (the selector) from the results of
positions 5 and 6 — so each referenced deployment completes and is
recorded strictly before the referencing command is issued. -/
theorem deploy_contracts_eight_in_order (rpcUrl pk : String) (oracle : Oracle) :
    (deployTrace rpcUrl pk oracle).length = 8 ∧
    (deploy_contracts rpcUrl pk oracle).1.map Prod.fst =
      ["fixedPriceStrategy", "currencyManager", "executionManager", "receiptToken",
       "exchange", "transferManagerERC721", "transferManagerERC1155",
       "transferSelector"] ∧
    List.lookup "fixedPriceStrategy" (deploy_contracts rpcUrl pk oracle).1 =
      some (deployAddressOf rpcUrl pk oracle 0) ∧
    List.lookup "currencyManager" (deploy_contracts rpcUrl pk oracle).1 =
      some (deployAddressOf rpcUrl pk oracle 1) ∧
    List.lookup "executionManager" (deploy_contracts rpcUrl pk oracle).1 =
      some (deployAddressOf rpcUrl pk oracle 2) ∧
    List.lookup "receiptToken" (deploy_contracts rpcUrl pk oracle).1 =
      some (deployAddressOf rpcUrl pk oracle 3) ∧
    List.lookup "exchange" (deploy_contracts rpcUrl pk oracle).1 =
      some (deployAddressOf rpcUrl pk oracle 4) ∧
    List.lookup "transferManagerERC721" (deploy_contracts rpcUrl pk oracle).1 =
      some (deployAddressOf rpcUrl pk oracle 5) ∧
    List.lookup "transferManagerERC1155" (deploy_contracts rpcUrl pk oracle).1 =
      some (deployAddressOf rpcUrl pk oracle 6) ∧
    List.lookup "transferSelector" (deploy_contracts rpcUrl pk oracle).1 =
      some (deployAddressOf rpcUrl pk oracle 7) ∧
    (deployTrace rpcUrl pk oracle).getD 0 [] = forgeCreateCmd rpcUrl pk
      "src/strategies/StrategyStandardSaleForFixedPrice.sol:StrategyStandardSaleForFixedPrice"
      [some STRATEGY_EXCHANGE_FEE] ∧
    (deployTrace rpcUrl pk oracle).getD 1 [] = forgeCreateCmd rpcUrl pk
      "src/CurrencyManager.sol:CurrencyManager" [] ∧
    (deployTrace rpcUrl pk oracle).getD 2 [] = forgeCreateCmd rpcUrl pk
      "src/ExecutionManager.sol:ExecutionManager" [] ∧
    (deployTrace rpcUrl pk oracle).getD 3 [] = forgeCreateCmd rpcUrl pk
      "src/ReceiptToken.sol:ReceiptToken" [] ∧
    (deployTrace rpcUrl pk oracle).getD 4 [] = forgeCreateCmd rpcUrl pk
      "src/RentalExchange.sol:RentalExchange"
      [deployAddressOf rpcUrl pk oracle 1, deployAddressOf rpcUrl pk oracle 2,
       some PROXY_FACTORY_ADDR, deployAddressOf rpcUrl pk oracle 3,
       some WETH, some PROTOCOL_FEE_RECIPIENT] ∧
    (deployTrace rpcUrl pk oracle).getD 5 [] = forgeCreateCmd rpcUrl pk
      "src/transferManagers/TransferManagerERC721.sol:TransferManagerERC721"
      [deployAddressOf rpcUrl pk oracle 4] ∧
    (deployTrace rpcUrl pk oracle).getD 6 [] = forgeCreateCmd rpcUrl pk
      "src/transferManagers/TransferManagerERC1155.sol:TransferManagerERC1155"
      [deployAddressOf rpcUrl pk oracle 4] ∧
    (deployTrace rpcUrl pk oracle).getD 7 [] = forgeCreateCmd rpcUrl pk
      "src/TransferSelectorNFT.sol:TransferSelectorNFT"
      [deployAddressOf rpcUrl pk oracle 5, deployAddressOf rpcUrl pk oracle 6] :=
  ⟨rfl, rfl, rfl, rfl, rfl, rfl, rfl, rfl, rfl, rfl,
   rfl, rfl, rfl, rfl, rfl, rfl, rfl, rfl⟩

/-! ### Characterization of `findSubAux` (used for C5) -/

theorem findSubAux_none_no_occ (sub : List Char) :
    ∀ (l : List Char) (i : Nat), findSubAux sub l i = none →
      ∀ j, ¬ occursAt sub l j := by
  intro l
  induction l with
  | nil =>
    intro i h j hocc
    unfold occursAt at hocc
    rw [List.drop_nil] at hocc
    have hs : sub = [] := by
      cases sub with
      | nil => rfl
      | cons a b => simp [List.isPrefixOf] at hocc
    subst hs
    simp [findSubAux, List.isEmpty] at h
  | cons c t ih =>
    intro i h j hocc
    unfold findSubAux at h
    cases hp : sub.isPrefixOf (c :: t) with
    | true => rw [hp] at h; simp at h
    | false =>
      rw [hp] at h; simp at h
      cases j with
      | zero =>
        unfold occursAt at hocc
        rw [List.drop_zero] at hocc
        rw [hp] at hocc
        exact Bool.false_ne_true hocc
      | succ j' =>
        refine ih (i + 1) h j' ?_
        unfold occursAt at hocc ⊢
        rwa [List.drop_succ_cons] at hocc

theorem findSubAux_some_of_first (sub : List Char) :
    ∀ (l : List Char) (j : Nat), occursAt sub l j →
      (∀ i, i < j → ¬ occursAt sub l i) →
      ∀ k, findSubAux sub l k = some (k + j) := by
  intro l
  induction l with
  | nil =>
    intro j hocc hmin k
    have hs : sub = [] := by
      unfold occursAt at hocc
      rw [List.drop_nil] at hocc
      cases sub with
      | nil => rfl
      | cons a b => simp [List.isPrefixOf] at hocc
    subst hs
    have hj : j = 0 := by
      by_contra hne
      exact hmin 0 (Nat.pos_of_ne_zero hne) (by simp [occursAt, List.isPrefixOf])
    subst hj
    simp [findSubAux, List.isEmpty]
  | cons c t ih =>
    intro j hocc hmin k
    unfold findSubAux
    cases hp : sub.isPrefixOf (c :: t) with
    | true =>
      have hj : j = 0 := by
        by_contra hne
        exact hmin 0 (Nat.pos_of_ne_zero hne) (by simpa [occursAt] using hp)
      subst hj
      simp [hp]
    | false =>
      have hj : j ≠ 0 := by
        intro h0
        subst h0
        unfold occursAt at hocc
        rw [List.drop_zero, hp] at hocc
        exact Bool.false_ne_true hocc
      obtain ⟨j', rfl⟩ : ∃ j', j = j' + 1 := ⟨j - 1, by omega⟩
      have hocc' : occursAt sub t j' := by
        unfold occursAt at hocc ⊢
        rwa [List.drop_succ_cons] at hocc
      have hmin' : ∀ i, i < j' → ¬ occursAt sub t i := by
        intro i hi hocc2
        refine hmin (i + 1) (by omega) ?_
        unfold occursAt at hocc2 ⊢
        rwa [List.drop_succ_cons]
      simp only [Bool.false_eq_true, if_false]
      rw [ih j' hocc' hmin' (k + 1)]
      congr 1
      omega

theorem parseCompilerVersion_eq (line tok : String)
    (htok : (pySplit line).getLast? = some tok) :
    parseCompilerVersion line = some ("v" ++ pySlice tok 0 (pyFindFrom tok "."
      (match findSubAux "commit".data tok.data 0 with
        | some k => k + 6 + 1
        | none => 6))) := by
  unfold parseCompilerVersion
  rw [htok]

/-- C5: on a line whose last whitespace token has the shape
`<version>+commit.<sha>.<platform>.<toolchain>` (with `commit` not
occurring inside the version part and no dot inside the sha),
`parseCompilerVersion` returns `v` followed by the token truncated right
after the commit-sha segment. -/
theorem parseCompilerVersion_commit_truncation (line v sha rest : String)
    (htok : (pySplit line).getLast? = some (v ++ "+commit." ++ sha ++ "." ++ rest))
    (hv : containsSub v "commit" = false)
    (hsha : sha.data.all (fun c => c != '.') = true) :
    parseCompilerVersion line = some ("v" ++ v ++ "+commit." ++ sha) := by
  have hv' : findSubAux "commit".data v.data 0 = none := by
    unfold containsSub at hv
    cases hfv : findSubAux "commit".data v.data 0 with
    | none => rfl
    | some x => rw [hfv] at hv; simp at hv
  have hnv : ∀ j, ¬ occursAt "commit".data v.data j :=
    findSubAux_none_no_occ _ _ _ hv'
  have htokd : (v ++ "+commit." ++ sha ++ "." ++ rest).data
      = v.data ++ '+' :: 'c' :: 'o' :: 'm' :: 'm' :: 'i' :: 't' :: '.' ::
        (sha.data ++ '.' :: rest.data) := by
    simp [String.data_append]
  -- the first occurrence of `commit` in the token is right after the `+`
  have hocc : occursAt "commit".data (v ++ "+commit." ++ sha ++ "." ++ rest).data
      (v.data.length + 1) := by
    unfold occursAt
    rw [htokd,
      show v.data ++ '+' :: 'c' :: 'o' :: 'm' :: 'm' :: 'i' :: 't' :: '.' ::
          (sha.data ++ '.' :: rest.data)
        = (v.data ++ ['+']) ++ ('c' :: 'o' :: 'm' :: 'm' :: 'i' :: 't' :: '.' ::
          (sha.data ++ '.' :: rest.data)) by simp,
       List.drop_left' (by simp)]
    simp [List.isPrefixOf]
  have hmin : ∀ i, i < v.data.length + 1 →
      ¬ occursAt "commit".data (v ++ "+commit." ++ sha ++ "." ++ rest).data i := by
    intro i hi hocc2
    unfold occursAt at hocc2
    rw [ List.isPrefixOf_iff_prefix] at hocc2
    obtain ⟨tl, htl⟩ := hocc2
    have hdrop : ((v ++ "+commit." ++ sha ++ "." ++ rest).data).drop i
        = v.data.drop i ++ ('+' :: 'c' :: 'o' :: 'm' :: 'm' :: 'i' :: 't' :: '.' ::
          (sha.data ++ '.' :: rest.data)) := by
      rw [htokd]
      conv_lhs => rw [← List.take_append_drop i v.data]
      rw [List.append_assoc,  List.drop_left' (by rw [List.length_take]; omega)]
    rw [hdrop] at htl
    by_cases hcase : i + 6 ≤ v.data.length
    · -- the occurrence would lie entirely inside `v`
      apply hnv i
      unfold occursAt
      rw [ List.isPrefixOf_iff_prefix,  List.prefix_iff_eq_take]
      have htake := congrArg (List.take 6) htl
      rw [ List.take_left' (by rfl)] at htake
      rw [List.take_append_eq_append_take,
        show 6 - (v.data.drop i).length = 0 by rw [List.length_drop]; omega,
        List.take_zero, List.append_nil] at htake
      exact htake
    · -- the occurrence would straddle the `+` at position `v.length`
      have hm : v.data.length - i < 6 := by omega
      have h1 : ("commit".data ++ tl)[v.data.length - i]?
          = "commit".data[v.data.length - i]? := by
        rw [List.getElem?_append]
        rw [if_pos (by simpa using hm)]
      have h2 : (v.data.drop i ++ ('+' :: 'c' :: 'o' :: 'm' :: 'm' :: 'i' :: 't' :: '.' ::
          (sha.data ++ '.' :: rest.data)))[v.data.length - i]? = some '+' := by
        rw [List.getElem?_append]
        rw [if_neg (by rw [List.length_drop]; omega),
          show v.data.length - i - (v.data.drop i).length = 0 by rw [List.length_drop]; omega]
        rfl
      rw [htl, h2] at h1
      have hmem : '+' ∈ "commit".data := List.getElem?_mem h1.symm
      revert hmem
      decide
  have hfind : findSubAux "commit".data (v ++ "+commit." ++ sha ++ "." ++ rest).data 0
      = some (v.data.length + 1) := by
    have h := findSubAux_some_of_first "commit".data _ (v.data.length + 1) hocc hmin 0
    simpa using h
  -- the dot ending the sha segment
  have hdotdrop : ((v ++ "+commit." ++ sha ++ "." ++ rest).data).drop
      (v.data.length + 1 + 6 + 1) = sha.data ++ '.' :: rest.data := by
    rw [htokd,
      show v.data ++ '+' :: 'c' :: 'o' :: 'm' :: 'm' :: 'i' :: 't' :: '.' ::
          (sha.data ++ '.' :: rest.data)
        = (v.data ++ ['+', 'c', 'o', 'm', 'm', 'i', 't', '.']) ++
          (sha.data ++ '.' :: rest.data) by simp,
       List.drop_left' (by
        rw [List.length_append,
          show (['+', 'c', 'o', 'm', 'm', 'i', 't', '.'] : List Char).length = 8 from rfl])]
  have hdot : findSubAux ['.'] (sha.data ++ '.' :: rest.data) 0 = some sha.data.length := by
    have hocc3 : occursAt ['.'] (sha.data ++ '.' :: rest.data) sha.data.length := by
      unfold occursAt
      rw [ List.drop_left' rfl]
      simp [List.isPrefixOf]
    have hmin3 : ∀ i, i < sha.data.length →
        ¬ occursAt ['.'] (sha.data ++ '.' :: rest.data) i := by
      intro i hi hocc4
      unfold occursAt at hocc4
      rw [ List.isPrefixOf_iff_prefix] at hocc4
      obtain ⟨tl, htl⟩ := hocc4
      have h1 : (List.drop i (sha.data ++ '.' :: rest.data))[0]? = some '.' := by
        rw [← htl]
        simp
      rw [List.getElem?_drop, Nat.add_zero] at h1
      rw [List.getElem?_append, if_pos (by simpa using hi)] at h1
      have hmem : '.' ∈ sha.data := List.getElem?_mem h1
      have := (List.all_eq_true.mp hsha) '.' hmem
      simp at this
    have h := findSubAux_some_of_first ['.'] _ sha.data.length hocc3 hmin3 0
    simpa using h
  -- assemble
  rw [parseCompilerVersion_eq line _ htok, hfind]
  show some ("v" ++ pySlice (v ++ "+commit." ++ sha ++ "." ++ rest) 0
    (pyFindFrom _ "." (v.data.length + 1 + 6 + 1))) = _
  unfold pyFindFrom
  rw [show (".".data : List Char) = ['.'] from rfl, hdotdrop, hdot]
  show some ("v" ++ pySlice (v ++ "+commit." ++ sha ++ "." ++ rest) 0
    ((v.data.length + 1 + 6 + 1 + sha.data.length : Nat) : Int)) = _
  unfold pySlice sliceIdx
  rw [if_neg (by omega), if_neg (by omega)]
  have hlen : ((v ++ "+commit." ++ sha ++ "." ++ rest).data).length
      = v.data.length + 8 + sha.data.length + 1 + rest.data.length := by
    rw [htokd]
    rw [List.length_append, List.length_cons, List.length_cons, List.length_cons,
      List.length_cons, List.length_cons, List.length_cons, List.length_cons,
      List.length_cons, List.length_append, List.length_cons]
    omega
  rw [show min ((0 : Int).toNat) ((v ++ "+commit." ++ sha ++ "." ++ rest).data).length
    = 0 from by omega]
  rw [show min ((v.data.length + 1 + 6 + 1 + sha.data.length : Nat) : Int).toNat
      ((v ++ "+commit." ++ sha ++ "." ++ rest).data).length
    = v.data.length + 8 + sha.data.length from by rw [hlen]; omega]
  rw [htokd,
    show v.data ++ '+' :: 'c' :: 'o' :: 'm' :: 'm' :: 'i' :: 't' :: '.' ::
        (sha.data ++ '.' :: rest.data)
      = (v.data ++ '+' :: 'c' :: 'o' :: 'm' :: 'm' :: 'i' :: 't' :: '.' :: sha.data) ++
        ('.' :: rest.data) by simp,
     List.take_left' (by simp; omega), List.drop_zero]
  congr 1
  apply String.ext
  simp [String.data_append]

/-- Witness for C5: the spec's concrete compiler-version line. -/
theorem parseCompilerVersion_commit_truncation_witness :
    parseCompilerVersion "Version: 0.8.13+commit.abaa5c0e.Darwin.appleclang"
      = some "v0.8.13+commit.abaa5c0e" := by
  have h := parseCompilerVersion_commit_truncation
    "Version: 0.8.13+commit.abaa5c0e.Darwin.appleclang"
    "0.8.13" "abaa5c0e" "Darwin.appleclang"
    (by decide) (by decide) (by decide)
  rw [h]
  decide

example : pySplit "  Deployed to: 0xAB cd " = ["Deployed", "to:", "0xAB", "cd"] := by decide
example : parseAddress "Deployed to: 0xABCDEF" = some "0xABCDEF" := by decide
example : parseAddress "no address here" = none := by decide
example : parseDeployedAddress "hello\nDeployed to: 0xFF\nbye" = some "0xFF" := by decide
example : parseCompilerVersion "Version: 0.8.13+commit.abaa5c0e.Darwin.appleclang"
    = some "v0.8.13+commit.abaa5c0e" := by decide
example : pySlice "\"abc123\"" 1 (-1) = "abc123" := by decide
example : pyStrip "  GUID: x " = "GUID: x" := by decide

end Deploy
